import Mathlib

/-!
Verification of the ueberzugpp image-normalization pipeline
(`src/image/opencv.cpp`) against its natural-language specification.

The pipeline is embedded shallowly:

* `Mat` models a `cv::Mat`: a list of rows, each row a list of pixels,
  each pixel a list of channel values (`Nat`), plus a 16-bit-depth flag.
* External OpenCV primitives (`cv::flip`, `cv::rotate`, `cv::resize`,
  `cv::cvtColor`, `Mat::convertTo`) are modelled from the spec's contract
  for the image codec (spec section 6); pixel values are exact naturals.
* Repository helpers that are declared elsewhere (`util::round_up`,
  `get_new_sizes`, `util::read_exif_rotation`) are either modelled from
  the spec or passed in as parameters of the environment.
* Stateful pipeline functions (`rotate_image`, `resize_image`,
  `resize_image_helper`, `process_image`, the constructor) become pure
  functions from an environment and a state to a new state together with
  a trace of the externally visible library calls (`Event`).
-/

namespace Ueberzug

/-- A pixel: its channel values in storage order.  The pipeline stores
BGR(A) order, i.e. a 4-channel pixel is `[b, g, r, a]`. -/
abbrev Pix := List Nat

/-- Model of `cv::Mat`: rows of pixels plus the bit-depth flag
(`depth16 = true` means `CV_16U`, otherwise 8-bit). -/
structure Mat where
  data : List (List Pix)
  depth16 : Bool
deriving Repr, DecidableEq

/-- `cv::Mat::rows`. -/
def Mat.height (m : Mat) : Nat := m.data.length

/-- `cv::Mat::cols` (length of the first row). -/
def Mat.width (m : Mat) : Nat := (m.data.headD []).length

/-- `cv::Mat::channels` (length of the first pixel). -/
def Mat.channels (m : Mat) : Nat := ((m.data.headD []).headD []).length

/-- `cv::Mat::total()` = rows × cols. -/
def Mat.total (m : Mat) : Nat := m.height * m.width

/-- `cv::Mat::elemSize1()`: bytes per channel value. -/
def Mat.elemSize1 (m : Mat) : Nat := if m.depth16 then 2 else 1

/-- `cv::Mat::elemSize()`: bytes per pixel. -/
def Mat.elemSize (m : Mat) : Nat := m.channels * m.elemSize1

/-- `cv::Mat::empty()`: no pixel data. -/
def Mat.isEmpty (m : Mat) : Bool := m.total = 0

/-- Pixel at row `i`, column `j` (defaulting to `[]` out of range). -/
def Mat.pixel (m : Mat) (i j : Nat) : Pix := (m.data.getD i []).getD j []

/-- Apply a per-pixel function to the whole buffer. -/
def Mat.mapPixels (m : Mat) (f : Pix → Pix) : Mat :=
  { m with data := m.data.map (fun row => row.map f) }

/-- Well-formedness of a buffer: rectangular with a uniform channel
count, matching what a real `cv::Mat` guarantees by construction. -/
structure Mat.Rect (m : Mat) : Prop where
  rows_len : ∀ row ∈ m.data, row.length = m.width
  pix_len : ∀ row ∈ m.data, ∀ p ∈ row, p.length = m.channels

end Ueberzug

namespace Ueberzug

/-- Modelled from the spec: `cv::flip` with flip code 1 (horizontal,
around the y-axis: mirror each row), 0 (vertical, around the x-axis:
reverse the row order) or -1 (both axes). -/
def cvFlip (code : Int) (m : Mat) : Mat :=
  if code = 1 then { m with data := m.data.map List.reverse }
  else if code = 0 then { m with data := m.data.reverse }
  else { m with data := (m.data.reverse).map List.reverse }

/-- Modelled from the spec: `cv::rotate` with `ROTATE_90_CLOCKWISE`.
Output cell `(i, j)` is input cell `(h - 1 - j, i)`; dimensions swap. -/
def cvRotateCW (m : Mat) : Mat :=
  { m with
    data := (List.range m.width).map (fun i =>
      (List.range m.height).map (fun j => m.pixel (m.height - 1 - j) i)) }

/-- Modelled from the spec: `cv::rotate` with `ROTATE_90_COUNTERCLOCKWISE`.
Output cell `(i, j)` is input cell `(j, w - 1 - i)`; dimensions swap. -/
def cvRotateCCW (m : Mat) : Mat :=
  { m with
    data := (List.range m.width).map (fun i =>
      (List.range m.height).map (fun j => m.pixel j (m.width - 1 - i))) }

/-- `OpencvImage::rotate_image`: dispatch on the EXIF orientation tag
read from metadata (`util::read_exif_rotation`, passed in as an
`Option Nat` since a read failure is "no orientation info"). -/
def rotate_image (exif : Option Nat) (m : Mat) : Mat :=
  match exif with
  | none => m
  | some v =>
    if v = 2 then cvFlip 1 m
    else if v = 3 then cvFlip (-1) m
    else if v = 4 then cvFlip 0 m
    else if v = 5 then cvFlip 1 (cvRotateCW m)
    else if v = 6 then cvRotateCW m
    else if v = 7 then cvFlip 1 (cvRotateCCW m)
    else if v = 8 then cvRotateCCW m
    else m

end Ueberzug

namespace Ueberzug

/-- Modelled from the spec: `util::round_up` (declared in `util.hpp`,
definition not in the provided sources): round `n` up to the nearest
multiple of `m`, as spec section 4.2 step 3 describes ("round each odd
dimension up to the nearest multiple of the scale factor"). -/
def round_up (n m : Nat) : Nat := ((n + m - 1) / m) * m

/-- Modelled from the spec: `cv::resize` to a `new_width` × `new_height`
target.  The resampling kernel (`INTER_AREA`) is external; it is
modelled as a deterministic nearest-source-pixel resample, which keeps
the contract the spec states for the codec's `resize`: the output has
exactly the requested size and is built only from input pixels. -/
def cvResize (m : Mat) (w h : Nat) : Mat :=
  { m with
    data := (List.range h).map (fun i =>
      (List.range w).map (fun j => m.pixel (i * m.height / h) (j * m.width / w))) }

/-- Modelled from the spec: per-channel 16-bit → 8-bit intensity
downscale, `value * (1/256)` with integer truncation semantics
(spec section 4.5 step 1). -/
def scale16to8 (v : Nat) : Nat := v * 1 / 256

/-- `Mat::convertTo(image, CV_8U, 1/256)`: downscale every channel of
every pixel and clear the 16-bit flag. -/
def convertTo8 (m : Mat) : Mat :=
  { data := m.data.map (fun row => row.map (fun p => p.map scale16to8)),
    depth16 := false }

/-- Alpha premultiplication of one BGRA pixel (`process_image`'s
`forEach` body): each of the three colour channels becomes
`channel * alpha / 255`, the alpha channel is unchanged. -/
def premultiplyPix (p : Pix) : Pix :=
  match p with
  | [b, g, r, a] => [b * a / 255, g * a / 255, r * a / 255, a]
  | _ => p

/-- Modelled from the spec: `cv::cvtColor` with `COLOR_GRAY2BGRA`:
replicate the grey value into B, G, R and add a fully opaque alpha. -/
def gray2bgraPix (p : Pix) : Pix :=
  [p.headD 0, p.headD 0, p.headD 0, 255]

/-- Modelled from the spec: `cv::cvtColor` with `COLOR_BGR2BGRA`:
append an opaque alpha channel. -/
def bgr2bgraPix (p : Pix) : Pix :=
  [p.getD 0 0, p.getD 1 0, p.getD 2 0, 255]

/-- Modelled from the spec: `cv::cvtColor` with `COLOR_BGRA2RGBA`:
swap the blue and red channels, keep alpha. -/
def bgra2rgbaPix (p : Pix) : Pix :=
  [p.getD 2 0, p.getD 1 0, p.getD 0 0, p.getD 3 0]

/-- Modelled from the spec: `cv::cvtColor` with `COLOR_BGR2RGB`:
swap the blue and red channels. -/
def bgr2rgbPix (p : Pix) : Pix :=
  [p.getD 2 0, p.getD 1 0, p.getD 0 0]

/-- Modelled from the spec: `cv::cvtColor` with `COLOR_BGRA2RGB`:
swap blue and red and drop the alpha channel. -/
def bgra2rgbPix (p : Pix) : Pix :=
  [p.getD 2 0, p.getD 1 0, p.getD 0 0]

/-- The colour-conversion codes `process_image` uses. -/
inductive CvtCode where
  | gray2bgra
  | bgr2bgra
  | bgra2rgba
  | bgr2rgb
  | bgra2rgb
deriving Repr, DecidableEq

/-- Externally visible library calls made by the pipeline, in order. -/
inductive Event where
  /-- `cv::resize(mat, mat, Size(w, h), 0, 0, INTER_AREA)`. -/
  | resizeCall (w h : Nat)
  /-- `cv::imwrite(save_location, mat)`: the written buffer and whether
  the write succeeded (a failure is caught and only logged). -/
  | imwrite (written : Mat) (ok : Bool)
  /-- `Mat::convertTo(image, CV_8U, 1/256)`. -/
  | depthConvert
  /-- The alpha-premultiply `forEach` pass. -/
  | premultiplyEv
  /-- `cv::cvtColor(image, image, code)`. -/
  | cvtColor (code : CvtCode)
deriving Repr, DecidableEq

/-- Is this event a cache write? -/
def Event.isWrite : Event → Bool
  | .imwrite _ _ => true
  | _ => false

/-- Is this event one of the colourization transforms (depth
conversion, alpha premultiply, channel reorder)? -/
def Event.isColor : Event → Bool
  | .depthConvert => true
  | .premultiplyEv => true
  | .cvtColor _ => true
  | _ => false

/-- The configuration the pipeline reads (`Flags::instance()`). -/
structure Flags where
  /-- `flags->output`: the active backend name. -/
  output : String
  /-- `flags->scale_factor`. -/
  scale_factor : Nat
  /-- `flags->no_cache`: caching disabled. -/
  no_cache : Bool
  /-- `flags->origin_center`. -/
  origin_center : Bool
  /-- `flags->needs_scaling`: the "needs even dimensions" flag. -/
  needs_scaling : Bool
deriving Repr, DecidableEq

/-- The environment of one pipeline run: configuration plus the results
of the external queries the run performs. -/
structure Env where
  flags : Flags
  /-- Result of `util::read_exif_rotation(path)`. -/
  exif : Option Nat
  /-- Result of `get_new_sizes(max_width, max_height, dims->scaler,
  flags->scale_factor)` — repository code not in the provided sources,
  so the resolved target is a parameter (spec section 4.2: a candidate
  pair, or ≤ 0 in both axes for "no resize"). -/
  newSize : Int × Int
  /-- Whether `cv::ocl::Context::getDefault().ptr()` is non-null. -/
  openclAvailable : Bool
  /-- Whether `cv::imwrite` throws `cv::Exception` for this run. -/
  writeFails : Bool
  /-- Whether the source was already a cached resized artifact. -/
  in_cache : Bool
  /-- `dims->terminal->font_width`. -/
  fontW : Nat
  /-- `dims->terminal->font_height`. -/
  fontH : Nat
deriving Repr, DecidableEq

/-- Pipeline state: the buffer, the external `Dimensions`' mutable
origin, and the byte size accessor's backing field `_size`. -/
structure PState where
  image : Mat
  dimX : Int
  dimY : Int
  size : Nat
deriving Repr, DecidableEq

end Ueberzug

namespace Ueberzug

/-- `OpencvImage::resize_image_helper`: resize the buffer with
`cv::resize`, then — unless caching is disabled — attempt to encode the
resized buffer to the cache path with `cv::imwrite`; a `cv::Exception`
from the write is caught and logged, never propagated, and leaves the
in-memory buffer untouched. -/
def resize_image_helper (env : Env) (m : Mat) (new_width new_height : Nat) :
    Mat × List Event :=
  let r := cvResize m new_width new_height
  (r, Event.resizeCall new_width new_height ::
      (if env.flags.no_cache then [] else [Event.imwrite r (! env.writeFails)]))

/-- `OpencvImage::resize_image`: skip entirely on a cache hit; on a
degenerate resolved size (≤ 0 in both axes), apply the even-dimension
round-up only when the "needs even dimensions" flag is set and a
dimension is odd; otherwise resize to the resolved size, going through
an OpenCL-resident copy when an OpenCL context is available (the copies
do not change the buffer's content, so both paths call
`resize_image_helper` on the same data). -/
def resize_image (env : Env) (m : Mat) : Mat × List Event :=
  if env.in_cache then (m, [])
  else
    let nw := env.newSize.1
    let nh := env.newSize.2
    if nw ≤ 0 ∧ nh ≤ 0 then
      if env.flags.needs_scaling then
        if m.width % 2 ≠ 0 ∨ m.height % 2 ≠ 0 then
          resize_image_helper env m (round_up m.width env.flags.scale_factor)
            (round_up m.height env.flags.scale_factor)
        else (m, [])
      else (m, [])
    else if env.openclAvailable then
      resize_image_helper env m nw.toNat nh.toNat
    else
      resize_image_helper env m nw.toNat nh.toNat

/-- Step 1 of the colourization (`process_image`): 16-bit buffers are
converted to 8-bit with `convertTo(image, CV_8U, 1/256)`. -/
def depthStage (m : Mat) : Mat × List Event :=
  if m.depth16 then (convertTo8 m, [Event.depthConvert]) else (m, [])

/-- Step 2: alpha premultiplication, applied only to 4-channel
buffers. -/
def premultiplyStage (m : Mat) : Mat × List Event :=
  if m.channels = 4 then (m.mapPixels premultiplyPix, [Event.premultiplyEv])
  else (m, [])

/-- Step 3: 1-channel (grayscale) buffers are expanded to BGRA with a
fully opaque alpha. -/
def grayStage (m : Mat) : Mat × List Event :=
  if m.channels = 1 then (m.mapPixels gray2bgraPix, [Event.cvtColor .gray2bgra])
  else (m, [])

/-- The `bgra_trifecta` of `process_image`. -/
def bgra_trifecta : List String := ["x11", "chafa", "wayland"]

/-- Step 4: the per-backend channel-order conversion chain of
`process_image`. -/
def backendStage (output : String) (m : Mat) : Mat × List Event :=
  if bgra_trifecta.contains output then
    if m.channels = 3 then (m.mapPixels bgr2bgraPix, [Event.cvtColor .bgr2bgra])
    else (m, [])
  else if output = "kitty" then
    if m.channels = 4 then (m.mapPixels bgra2rgbaPix, [Event.cvtColor .bgra2rgba])
    else (m.mapPixels bgr2rgbPix, [Event.cvtColor .bgr2rgb])
  else if output = "sixel" then
    if m.channels = 4 then (m.mapPixels bgra2rgbPix, [Event.cvtColor .bgra2rgb])
    else (m.mapPixels bgr2rgbPix, [Event.cvtColor .bgr2rgb])
  else (m, [])

/-- `OpencvImage::process_image`: resize, then (if requested) shift the
external `Dimensions`' origin left/up by half the image's size in
font-cell units, then run the colourization steps 1–4, and finally set
`_size = image.total() * image.elemSize()`.  (The `ENABLE_OPENGL`
vertical flip is compiled out and not modelled; `wayland_processing` is
a no-op.) -/
def process_image (env : Env) (s : PState) : PState × List Event :=
  let rz := resize_image env s.image
  let img1 := rz.1
  let x := if env.flags.origin_center
    then s.dimX - Int.ofNat (img1.width / env.fontW / 2) else s.dimX
  let y := if env.flags.origin_center
    then s.dimY - Int.ofNat (img1.height / env.fontH / 2) else s.dimY
  let d := depthStage img1
  let pm := premultiplyStage d.1
  let g := grayStage pm.1
  let bk := backendStage env.flags.output g.1
  ({ image := bk.1, dimX := x, dimY := y, size := bk.1.total * bk.1.elemSize },
   rz.2 ++ d.2 ++ pm.2 ++ g.2 ++ bk.2)

/-- `OpencvImage::OpencvImage`: decode the file (the decoded result is
the `decoded` parameter; `cv::imread` is external), fail with the load
error if it is empty, otherwise run `rotate_image` then
`process_image`.  On failure no object state is produced at all. -/
def construct (env : Env) (decoded : Mat) (x0 y0 : Int) :
    Except String (PState × List Event) :=
  if decoded.isEmpty then Except.error "unable to read image"
  else
    let rotated := rotate_image env.exif decoded
    Except.ok (process_image env { image := rotated, dimX := x0, dimY := y0, size := 0 })

end Ueberzug

namespace Ueberzug

/-- Is this event the alpha-premultiply pass? -/
def Event.isPremultiply : Event → Bool
  | .premultiplyEv => true
  | _ => false

/-- Every event `resize_image_helper` emits is a resize call or a cache
write, never a colourization transform. -/
theorem resize_image_helper_trace_no_color (env : Env) (m : Mat)
    (w h : Nat) : ∀ e ∈ (resize_image_helper env m w h).2, e.isColor = false := by
  intro e he
  unfold resize_image_helper at he
  simp only [List.mem_cons] at he
  rcases he with rfl | he
  · rfl
  · by_cases hc : env.flags.no_cache <;> simp [hc] at he
    subst he; rfl

/-- Every event `resize_image` emits is a resize call or a cache write,
never a colourization transform. -/
theorem resize_trace_no_color (env : Env) (m : Mat) :
    ∀ e ∈ (resize_image env m).2, e.isColor = false := by
  intro e he
  unfold resize_image at he
  dsimp only at he
  repeat' split at he
  all_goals
    first
      | simp at he
      | exact resize_image_helper_trace_no_color env m _ _ e he

/-- A premultiply event is a colourization event. -/
theorem isPremultiply_isColor {e : Event} (h : e.isPremultiply = true) :
    e.isColor = true := by
  cases e <;> simp_all [Event.isPremultiply, Event.isColor]

end Ueberzug

namespace Ueberzug

/-- The depth-conversion stage never emits a premultiply event. -/
theorem depthStage_no_premultiply (m : Mat) :
    (depthStage m).2.countP Event.isPremultiply = 0 := by
  unfold depthStage; split <;> rfl

/-- The premultiply stage runs at most once. -/
theorem premultiplyStage_once (m : Mat) :
    (premultiplyStage m).2.countP Event.isPremultiply ≤ 1 := by
  unfold premultiplyStage; split <;> simp [Event.isPremultiply]

/-- The grayscale-expansion stage never emits a premultiply event. -/
theorem grayStage_no_premultiply (m : Mat) :
    (grayStage m).2.countP Event.isPremultiply = 0 := by
  unfold grayStage; split <;> rfl

/-- The backend channel-conversion stage never emits a premultiply
event. -/
theorem backendStage_no_premultiply (out : String) (m : Mat) :
    (backendStage out m).2.countP Event.isPremultiply = 0 := by
  unfold backendStage
  repeat' split
  all_goals rfl

/-- The resize phase never emits a premultiply event. -/
theorem resize_no_premultiply (env : Env) (m : Mat) :
    (resize_image env m).2.countP Event.isPremultiply = 0 := by
  rw [List.countP_eq_zero]
  intro e he
  have hc := resize_trace_no_color env m e he
  cases e <;> simp_all [Event.isPremultiply, Event.isColor]

/-- C3: alpha premultiplication — replacing each colour channel by
`channel * alpha / 255` with integer division, alpha unchanged — is not
idempotent: there is a 4-channel buffer where applying the premultiply
stage twice differs from applying it once; and every `process_image`
run emits at most one premultiply pass. -/
theorem premultiply_not_idempotent_and_applied_once :
    (∃ m : Mat, m.channels = 4 ∧
      (premultiplyStage ((premultiplyStage m).1)).1 ≠ (premultiplyStage m).1) ∧
    ∀ (env : Env) (s : PState),
      (process_image env s).2.countP Event.isPremultiply ≤ 1 := by
  constructor
  · exact ⟨⟨[[[255, 0, 0, 128]]], false⟩, by decide, by decide⟩
  · intro env s
    unfold process_image
    dsimp only
    rw [List.countP_append, List.countP_append, List.countP_append,
      List.countP_append]
    have h1 := resize_no_premultiply env s.image
    have h2 := depthStage_no_premultiply (resize_image env s.image).1
    have h3 := premultiplyStage_once (depthStage (resize_image env s.image).1).1
    have h4 := grayStage_no_premultiply
      (premultiplyStage (depthStage (resize_image env s.image).1).1).1
    have h5 := backendStage_no_premultiply env.flags.output
      (grayStage (premultiplyStage (depthStage (resize_image env s.image).1).1).1).1
    omega

end Ueberzug

namespace Ueberzug

/-- Pixel-level view of `convertTo8`: every channel of every pixel is
downscaled with `scale16to8`. -/
theorem convertTo8_pixel (m : Mat) (i j : Nat) :
    (convertTo8 m).pixel i j = (m.pixel i j).map scale16to8 := by
  unfold convertTo8 Mat.pixel
  simp only [List.getD_eq_getElem?_getD, List.getElem?_map]
  cases hrow : m.data[i]? with
  | none => simp
  | some row =>
    simp only [Option.map_some', Option.getD_some, List.getElem?_map]
    cases hp : row[j]? <;> simp

/-- C4: when the buffer is 16-bit, the depth stage maps every channel
value `v` to `v * 1 / 256` with integer truncation (`scale16to8`),
marks the buffer 8-bit, the maximum 16-bit intensity 65535 becomes
exactly 255, and no 16-bit value can reach 256 (no overflow or
wraparound). -/
theorem convert16to8_truncates_max_to_255 (m : Mat) (h16 : m.depth16 = true)
    (i j : Nat) :
    (depthStage m).1.pixel i j = (m.pixel i j).map scale16to8 ∧
    (depthStage m).1.depth16 = false ∧
    scale16to8 65535 = 255 ∧
    (∀ v : Nat, v < 65536 → scale16to8 v < 256) := by
  refine ⟨?_, ?_, by decide, ?_⟩
  · unfold depthStage
    rw [if_pos h16]
    exact convertTo8_pixel m i j
  · unfold depthStage
    rw [if_pos h16]
    rfl
  · intro v hv
    unfold scale16to8
    omega

/-- Witness for C4 at the one-pixel 16-bit buffer holding the maximum
intensity 65535. -/
theorem convert16to8_truncates_max_to_255_witness :
    (depthStage ⟨[[[65535]]], true⟩).1.pixel 0 0 =
      (Mat.pixel ⟨[[[65535]]], true⟩ 0 0).map scale16to8 ∧
    (depthStage ⟨[[[65535]]], true⟩).1.depth16 = false ∧
    scale16to8 65535 = 255 ∧
    (∀ v : Nat, v < 65536 → scale16to8 v < 256) :=
  convert16to8_truncates_max_to_255 ⟨[[[65535]]], true⟩ rfl 0 0

end Ueberzug

namespace Ueberzug

/-- C6: when origin-centering is requested, `process_image` decrements
the `Dimensions` origin by the floor of half the (post-resize) image
size in font-cell units: `x -= ⌊(w / font_width) / 2⌋` and
`y -= ⌊(h / font_height) / 2⌋`, both floor divisions. -/
theorem origin_center_shift (env : Env) (s : PState)
    (hc : env.flags.origin_center = true) :
    (process_image env s).1.dimX =
      s.dimX - Int.ofNat ((resize_image env s.image).1.width / env.fontW / 2) ∧
    (process_image env s).1.dimY =
      s.dimY - Int.ofNat ((resize_image env s.image).1.height / env.fontH / 2) := by
  unfold process_image
  dsimp only
  rw [if_pos hc, if_pos hc]
  exact ⟨rfl, rfl⟩

/-- Environment of the spec's origin-centering example: font cell size
(8, 16), centering enabled, cache hit (so the resize leaves the buffer
at its decoded size). -/
def centerEnv : Env :=
  { flags := { output := "x11", scale_factor := 2, no_cache := false,
               origin_center := true, needs_scaling := false },
    exif := none, newSize := (0, 0), openclAvailable := false,
    writeFails := false, in_cache := true, fontW := 8, fontH := 16 }

/-- State of the spec's origin-centering example: an 80 × 160 pixel
image (10 × 10 cells) anchored at origin (5, 5). -/
def centerState : PState :=
  { image := ⟨List.replicate 160 (List.replicate 80 [0]), false⟩,
    dimX := 5, dimY := 5, size := 0 }

set_option maxRecDepth 4000 in
/-- Witness for C6: with font cell size (8, 16), image pixel size
(80, 160) and starting origin (5, 5), the resulting origin is (0, 0). -/
theorem origin_center_shift_witness :
    (process_image centerEnv centerState).1.dimX = 0 ∧
    (process_image centerEnv centerState).1.dimY = 0 := by
  have h := origin_center_shift centerEnv centerState rfl
  refine ⟨h.1.trans ?_, h.2.trans ?_⟩ <;> decide

/-- C7: constructing the pipeline object fails (with the load error
propagated to the caller, producing no object state at all) exactly
when the decoded result is empty; for every non-empty decode the
constructor returns a fully processed pipeline state. -/
theorem construct_fails_iff_empty_decode (env : Env) (decoded : Mat)
    (x0 y0 : Int) :
    ((∃ e, construct env decoded x0 y0 = Except.error e) ↔
      decoded.isEmpty = true) ∧
    (decoded.isEmpty = false →
      construct env decoded x0 y0 = Except.ok (process_image env
        { image := rotate_image env.exif decoded, dimX := x0, dimY := y0,
          size := 0 })) := by
  unfold construct
  by_cases h : decoded.isEmpty <;> simp [h]

/-- Witness for C7: the empty decode fails, a 1 × 1 decode succeeds. -/
theorem construct_fails_iff_empty_decode_witness :
    (∃ e, construct centerEnv ⟨[], false⟩ 0 0 = Except.error e) ∧
    construct centerEnv ⟨[[[7]]], false⟩ 0 0 = Except.ok (process_image centerEnv
      { image := rotate_image centerEnv.exif ⟨[[[7]]], false⟩, dimX := 0,
        dimY := 0, size := 0 }) :=
  ⟨(construct_fails_iff_empty_decode centerEnv ⟨[], false⟩ 0 0).1.mpr rfl,
   (construct_fails_iff_empty_decode centerEnv ⟨[[[7]]], false⟩ 0 0).2 rfl⟩

end Ueberzug

namespace Ueberzug

/-- C8: the in-memory result of `resize_image_helper` is always the
resized buffer — identical whether the cache write throws or succeeds
(caught and logged, no rollback); at most one write is attempted (no
retry); and with caching disabled no write happens at all. -/
theorem cache_write_failure_nonfatal (env : Env) (m : Mat) (w h : Nat) :
    (resize_image_helper env m w h).1 = cvResize m w h ∧
    (resize_image_helper { env with writeFails := true } m w h).1 =
      (resize_image_helper { env with writeFails := false } m w h).1 ∧
    (resize_image_helper env m w h).2.countP Event.isWrite ≤ 1 ∧
    (env.flags.no_cache = true →
      ∀ e ∈ (resize_image_helper env m w h).2, e.isWrite = false) := by
  refine ⟨rfl, rfl, ?_, ?_⟩
  · unfold resize_image_helper
    dsimp only
    split <;> simp [Event.isWrite]
  · intro hnc e he
    unfold resize_image_helper at he
    dsimp only at he
    rw [if_pos hnc] at he
    simp only [List.mem_cons, List.not_mem_nil, or_false] at he
    subst he
    rfl

/-- Witness for C8 at a concrete 2 × 2 buffer, once with caching
disabled and once with a failing cache write. -/
theorem cache_write_failure_nonfatal_witness :
    (resize_image_helper
      { centerEnv with flags := { centerEnv.flags with no_cache := true } }
      ⟨[[[1], [2]], [[3], [4]]], false⟩ 1 1).1 =
      cvResize ⟨[[[1], [2]], [[3], [4]]], false⟩ 1 1 ∧
    (resize_image_helper { centerEnv with writeFails := true }
      ⟨[[[1], [2]], [[3], [4]]], false⟩ 1 1).1 =
      (resize_image_helper { centerEnv with writeFails := false }
        ⟨[[[1], [2]], [[3], [4]]], false⟩ 1 1).1 ∧
    (∀ e ∈ (resize_image_helper
      { centerEnv with flags := { centerEnv.flags with no_cache := true } }
      ⟨[[[1], [2]], [[3], [4]]], false⟩ 1 1).2, e.isWrite = false) := by
  have h1 := cache_write_failure_nonfatal
    { centerEnv with flags := { centerEnv.flags with no_cache := true } }
    ⟨[[[1], [2]], [[3], [4]]], false⟩ 1 1
  have h2 := cache_write_failure_nonfatal centerEnv
    ⟨[[[1], [2]], [[3], [4]]], false⟩ 1 1
  exact ⟨h1.1, h2.2.1, h1.2.2.2 rfl⟩

end Ueberzug

namespace Ueberzug

/-- `getD` through a `map`, at an in-range index. -/
theorem getD_map_lt {α β : Type} (l : List α) (f : α → β) (i : Nat) (d : β)
    (d' : α) (h : i < l.length) : (l.map f).getD i d = f (l.getD i d') := by
  simp [List.getD_eq_getElem?_getD, List.getElem?_map, List.getElem?_eq_getElem, h]

/-- `getD` of a reversed list, at an in-range index. -/
theorem getD_reverse_lt {α : Type} (l : List α) (i : Nat) (d : α)
    (h : i < l.length) : l.reverse.getD i d = l.getD (l.length - 1 - i) d := by
  have h2 : l.length - 1 - i < l.length := by omega
  simp [List.getD_eq_getElem?_getD, List.getElem?_eq_getElem, h, h2,
    List.getElem_reverse]

/-- `getD` of a mapped range, at an in-range index. -/
theorem getD_range_map {α : Type} (n : Nat) (f : Nat → α) (i : Nat) (d : α)
    (h : i < n) : ((List.range n).map f).getD i d = f i := by
  simp [List.getD_eq_getElem?_getD, List.getElem?_map, List.getElem?_eq_getElem, h]

/-- An in-range `getD` is a member of the list. -/
theorem getD_mem_of_lt {α : Type} (l : List α) (i : Nat) (d : α)
    (h : i < l.length) : l.getD i d ∈ l := by
  rw [List.getD_eq_getElem?_getD, List.getElem?_eq_getElem h]
  exact List.getElem_mem h

/-- `headD` is `getD` at index 0. -/
theorem headD_eq_getD {α : Type} (l : List α) (d : α) : l.headD d = l.getD 0 d := by
  cases l <;> rfl

/-- Modelled from the spec (section 4.1, tag 2): the output is the
horizontal flip of the input — same shape, row `i` mirrored. -/
def IsHorizontalFlip (m mo : Mat) : Prop :=
  mo.depth16 = m.depth16 ∧ mo.height = m.height ∧ mo.width = m.width ∧
  ∀ i j, i < m.height → j < m.width →
    mo.pixel i j = m.pixel i (m.width - 1 - j)

/-- Modelled from the spec (section 4.1, tag 4): the output is the
vertical flip of the input — same shape, row order reversed. -/
def IsVerticalFlip (m mo : Mat) : Prop :=
  mo.depth16 = m.depth16 ∧ mo.height = m.height ∧ mo.width = m.width ∧
  ∀ i j, i < m.height → j < m.width →
    mo.pixel i j = m.pixel (m.height - 1 - i) j

/-- Modelled from the spec (section 4.1, tag 3): the output is the 180°
flip of the input — same shape, both axes mirrored. -/
def IsFlip180 (m mo : Mat) : Prop :=
  mo.depth16 = m.depth16 ∧ mo.height = m.height ∧ mo.width = m.width ∧
  ∀ i j, i < m.height → j < m.width →
    mo.pixel i j = m.pixel (m.height - 1 - i) (m.width - 1 - j)

/-- Modelled from the spec (section 4.1, tag 6): the output is the
input rotated 90° clockwise — dimensions swapped, output cell `(i, j)`
taken from input cell `(h - 1 - j, i)`. -/
def IsRotate90CW (m mo : Mat) : Prop :=
  mo.depth16 = m.depth16 ∧ mo.height = m.width ∧ mo.width = m.height ∧
  ∀ i j, i < m.width → j < m.height →
    mo.pixel i j = m.pixel (m.height - 1 - j) i

/-- Modelled from the spec (section 4.1, tag 8): the output is the
input rotated 90° counter-clockwise — dimensions swapped, output cell
`(i, j)` taken from input cell `(j, w - 1 - i)`. -/
def IsRotate90CCW (m mo : Mat) : Prop :=
  mo.depth16 = m.depth16 ∧ mo.height = m.width ∧ mo.width = m.height ∧
  ∀ i j, i < m.width → j < m.height →
    mo.pixel i j = m.pixel j (m.width - 1 - i)

/-- `cv::flip` with code 1, unfolded. -/
theorem cvFlip_one (m : Mat) :
    cvFlip 1 m = { m with data := m.data.map List.reverse } := rfl

/-- `cv::flip` with code 0, unfolded. -/
theorem cvFlip_zero (m : Mat) :
    cvFlip 0 m = { m with data := m.data.reverse } := rfl

/-- `cv::flip` with code -1, unfolded. -/
theorem cvFlip_negOne (m : Mat) :
    cvFlip (-1) m = { m with data := m.data.reverse.map List.reverse } := rfl

/-- `cv::flip(_, _, 1)` realizes the spec's horizontal flip on every
rectangular buffer. -/
theorem cvFlip_one_hflip (m : Mat)
    (hrows : ∀ row ∈ m.data, row.length = m.width) :
    IsHorizontalFlip m (cvFlip 1 m) := by
  refine ⟨rfl, by simp [cvFlip_one, Mat.height], ?_, ?_⟩
  · rw [cvFlip_one]
    unfold Mat.width
    cases hd : m.data with
    | nil => simp
    | cons r t => simp
  · intro i j hi hj
    rw [cvFlip_one]
    unfold Mat.pixel
    dsimp only
    rw [getD_map_lt m.data List.reverse i [] [] hi]
    have hlen : (m.data.getD i []).length = m.width :=
      hrows _ (getD_mem_of_lt m.data i [] hi)
    rw [getD_reverse_lt _ j [] (by rw [hlen]; exact hj), hlen]

/-- The first row of the reversed row list still has the common row
length of a rectangular buffer. -/
theorem reverse_rows_width (m : Mat)
    (hrows : ∀ row ∈ m.data, row.length = m.width) :
    (m.data.reverse.headD []).length = m.width := by
  by_cases hd : m.data = []
  · simp [hd, Mat.width]
  · have hlen : 0 < m.data.length := List.length_pos.mpr hd
    rw [headD_eq_getD, getD_reverse_lt m.data 0 [] hlen]
    exact hrows _ (getD_mem_of_lt m.data _ [] (by omega))

/-- `cv::flip(_, _, 0)` realizes the spec's vertical flip on every
rectangular buffer. -/
theorem cvFlip_zero_vflip (m : Mat)
    (hrows : ∀ row ∈ m.data, row.length = m.width) :
    IsVerticalFlip m (cvFlip 0 m) := by
  refine ⟨rfl, by simp [cvFlip_zero, Mat.height], ?_, ?_⟩
  · rw [cvFlip_zero]
    exact reverse_rows_width m hrows
  · intro i j hi hj
    rw [cvFlip_zero]
    have hi' : i < m.data.length := hi
    show (m.data.reverse.getD i []).getD j [] = _
    rw [getD_reverse_lt m.data i [] hi']
    rfl

/-- `cv::flip(_, _, -1)` realizes the spec's 180° flip on every
rectangular buffer. -/
theorem cvFlip_negOne_flip180 (m : Mat)
    (hrows : ∀ row ∈ m.data, row.length = m.width) :
    IsFlip180 m (cvFlip (-1) m) := by
  refine ⟨rfl, by simp [cvFlip_negOne, Mat.height], ?_, ?_⟩
  · rw [cvFlip_negOne]
    show ((m.data.reverse.map List.reverse).headD []).length = m.width
    by_cases hd : m.data = []
    · simp [hd, Mat.width]
    · have hlen : 0 < m.data.length := List.length_pos.mpr hd
      rw [headD_eq_getD,
        getD_map_lt m.data.reverse List.reverse 0 [] [] (by simpa using hlen),
        List.length_reverse, getD_reverse_lt m.data 0 [] hlen]
      exact hrows _ (getD_mem_of_lt m.data _ [] (by omega))
  · intro i j hi hj
    rw [cvFlip_negOne]
    have hi' : i < m.data.length := hi
    show ((m.data.reverse.map List.reverse).getD i []).getD j [] = _
    rw [getD_map_lt m.data.reverse List.reverse i [] [] (by simpa using hi'),
      getD_reverse_lt m.data i [] hi']
    have hlen : (m.data.getD (m.data.length - 1 - i) []).length = m.width :=
      hrows _ (getD_mem_of_lt m.data _ [] (by omega))
    rw [getD_reverse_lt _ j [] (by rw [hlen]; exact hj), hlen]
    rfl

end Ueberzug

namespace Ueberzug

/-- `cv::rotate(_, _, ROTATE_90_CLOCKWISE)` realizes the spec's
clockwise rotation on every non-empty buffer. -/
theorem cvRotateCW_is_spec (m : Mat) (hw : 0 < m.width) :
    IsRotate90CW m (cvRotateCW m) := by
  refine ⟨rfl, by simp [cvRotateCW, Mat.height], ?_, ?_⟩
  · show (((List.range m.width).map _).headD []).length = m.height
    rw [headD_eq_getD, getD_range_map m.width _ 0 [] hw]
    simp
  · intro i j hi hj
    show (((List.range m.width).map _).getD i []).getD j [] = _
    rw [getD_range_map m.width _ i [] hi, getD_range_map m.height _ j [] hj]

/-- `cv::rotate(_, _, ROTATE_90_COUNTERCLOCKWISE)` realizes the spec's
counter-clockwise rotation on every non-empty buffer. -/
theorem cvRotateCCW_is_spec (m : Mat) (hw : 0 < m.width) :
    IsRotate90CCW m (cvRotateCCW m) := by
  refine ⟨rfl, by simp [cvRotateCCW, Mat.height], ?_, ?_⟩
  · show (((List.range m.width).map _).headD []).length = m.height
    rw [headD_eq_getD, getD_range_map m.width _ 0 [] hw]
    simp
  · intro i j hi hj
    show (((List.range m.width).map _).getD i []).getD j [] = _
    rw [getD_range_map m.width _ i [] hi, getD_range_map m.height _ j [] hj]

/-- A clockwise-rotated buffer is rectangular. -/
theorem cvRotateCW_rows (m : Mat) (hw : 0 < m.width) :
    ∀ row ∈ (cvRotateCW m).data, row.length = (cvRotateCW m).width := by
  intro row hrow
  unfold cvRotateCW at hrow
  dsimp only at hrow
  rw [List.mem_map] at hrow
  obtain ⟨i, hi, rfl⟩ := hrow
  show _ = (((List.range m.width).map _).headD []).length
  rw [headD_eq_getD, getD_range_map m.width _ 0 [] hw]
  simp

/-- A counter-clockwise-rotated buffer is rectangular. -/
theorem cvRotateCCW_rows (m : Mat) (hw : 0 < m.width) :
    ∀ row ∈ (cvRotateCCW m).data, row.length = (cvRotateCCW m).width := by
  intro row hrow
  unfold cvRotateCCW at hrow
  dsimp only at hrow
  rw [List.mem_map] at hrow
  obtain ⟨i, hi, rfl⟩ := hrow
  show _ = (((List.range m.width).map _).headD []).length
  rw [headD_eq_getD, getD_range_map m.width _ 0 [] hw]
  simp

/-- C2: `rotate_image` applies exactly the transform of the spec's
section-4.1 table for each EXIF tag 2–8, is a no-op for an absent tag,
tag 1 or any unrecognized value, and the tag-3 transform equals the
tag-2 transform followed by the tag-4 transform on every buffer. -/
theorem exif_orientation_table (m : Mat) (hr : m.Rect)
    (hw : 0 < m.width) :
    rotate_image none m = m ∧
    rotate_image (some 1) m = m ∧
    (∀ v : Nat, v < 2 ∨ 9 ≤ v → rotate_image (some v) m = m) ∧
    IsHorizontalFlip m (rotate_image (some 2) m) ∧
    IsFlip180 m (rotate_image (some 3) m) ∧
    IsVerticalFlip m (rotate_image (some 4) m) ∧
    (∃ mid, IsRotate90CW m mid ∧
      IsHorizontalFlip mid (rotate_image (some 5) m)) ∧
    IsRotate90CW m (rotate_image (some 6) m) ∧
    (∃ mid, IsRotate90CCW m mid ∧
      IsHorizontalFlip mid (rotate_image (some 7) m)) ∧
    IsRotate90CCW m (rotate_image (some 8) m) ∧
    (∀ b : Mat, rotate_image (some 3) b =
      rotate_image (some 4) (rotate_image (some 2) b)) := by
  refine ⟨rfl, rfl, ?_, ?_, ?_, ?_, ?_, ?_, ?_, ?_, ?_⟩
  · intro v hv
    unfold rotate_image
    dsimp only
    rw [if_neg (by omega), if_neg (by omega), if_neg (by omega),
      if_neg (by omega), if_neg (by omega), if_neg (by omega),
      if_neg (by omega)]
  · exact cvFlip_one_hflip m hr.rows_len
  · exact cvFlip_negOne_flip180 m hr.rows_len
  · exact cvFlip_zero_vflip m hr.rows_len
  · exact ⟨cvRotateCW m, cvRotateCW_is_spec m hw,
      cvFlip_one_hflip (cvRotateCW m) (cvRotateCW_rows m hw)⟩
  · exact cvRotateCW_is_spec m hw
  · exact ⟨cvRotateCCW m, cvRotateCCW_is_spec m hw,
      cvFlip_one_hflip (cvRotateCCW m) (cvRotateCCW_rows m hw)⟩
  · exact cvRotateCCW_is_spec m hw
  · intro b
    show cvFlip (-1) b = cvFlip 0 (cvFlip 1 b)
    rw [cvFlip_negOne, cvFlip_zero, cvFlip_one]
    dsimp only
    congr 1
    exact List.map_reverse _ _

/-- A concrete 2 × 3 single-channel buffer. -/
def matC2 : Mat := ⟨[[[1], [2], [3]], [[4], [5], [6]]], false⟩

/-- Witness for C2 at a concrete 2 × 3 buffer. -/
theorem exif_orientation_table_witness :
    (Mat.Rect matC2 ∧ 0 < matC2.width) ∧
    IsHorizontalFlip matC2 (rotate_image (some 2) matC2) ∧
    IsRotate90CW matC2 (rotate_image (some 6) matC2) :=
  ⟨⟨⟨by decide, by decide⟩, by decide⟩,
   (exif_orientation_table matC2 ⟨by decide, by decide⟩
     (by decide)).2.2.2.1,
   (exif_orientation_table matC2 ⟨by decide, by decide⟩
     (by decide)).2.2.2.2.2.2.2.1⟩

end Ueberzug

namespace Ueberzug

/-- `cvResize` always produces the requested number of rows. -/
theorem cvResize_height (m : Mat) (w h : Nat) : (cvResize m w h).height = h := by
  simp [cvResize, Mat.height]

/-- `cvResize` produces the requested row length (when there is at
least one row). -/
theorem cvResize_width (m : Mat) (w h : Nat) (hh : 0 < h) :
    (cvResize m w h).width = w := by
  show (((List.range h).map _).headD []).length = w
  rw [headD_eq_getD, getD_range_map h _ 0 [] hh]
  simp

/-- Rounding a positive number up to a positive multiple is positive. -/
theorem round_up_pos (n m : Nat) (hn : 0 < n) (hm : 0 < m) :
    0 < round_up n m := by
  unfold round_up
  exact Nat.mul_pos (Nat.div_pos (by omega) hm) hm

/-- Cache-miss environment of the spec's even-dimension example:
degenerate resolved size, "needs even dimensions" set, scale factor 2,
caching disabled. -/
def oddEnv : Env :=
  { flags := { output := "x11", scale_factor := 2, no_cache := true,
               origin_center := false, needs_scaling := true },
    exif := none, newSize := (0, 0), openclAvailable := false,
    writeFails := false, in_cache := false, fontW := 8, fontH := 16 }

/-- A 101 × 1 buffer (odd width 101, as in the spec's example). -/
def oddMat : Mat := ⟨[List.replicate 101 [0]], false⟩

set_option maxRecDepth 4000 in
/-- C1 counterexample: on a cache-miss image of odd width 101 with
scale factor 2, a degenerate resolved size and the needs-even flag set,
`resize_image` DOES make a library resize call — `cv::resize` to the
rounded-up size (102, 2) — contradicting the claim that no library
resize call is made in this path. -/
theorem degenerate_roundup_calls_resize :
    (resize_image oddEnv oddMat).2 = [Event.resizeCall 102 2] := by decide

/-- C1 (amended): on a cache miss with a degenerate resolved size, the
needs-even flag set and an odd width or height, `resize_image` rounds
both dimensions up to the nearest multiple of the scale factor by
passing them to `resize_image_helper`, which performs a library
`cv::resize` call to exactly those dimensions (so the buffer is
resampled, not merely reshaped). -/
theorem degenerate_roundup_resizes (env : Env) (m : Mat)
    (hcache : env.in_cache = false)
    (hdeg : env.newSize.1 ≤ 0 ∧ env.newSize.2 ≤ 0)
    (hns : env.flags.needs_scaling = true)
    (hodd : m.width % 2 ≠ 0 ∨ m.height % 2 ≠ 0)
    (hsf : 0 < env.flags.scale_factor)
    (hh : 0 < m.height) :
    (resize_image env m).1.width = round_up m.width env.flags.scale_factor ∧
    (resize_image env m).1.height = round_up m.height env.flags.scale_factor ∧
    Event.resizeCall (round_up m.width env.flags.scale_factor)
      (round_up m.height env.flags.scale_factor) ∈ (resize_image env m).2 := by
  unfold resize_image
  dsimp only
  rw [if_neg (by simp [hcache]), if_pos hdeg, if_pos hns, if_pos hodd]
  unfold resize_image_helper
  dsimp only
  refine ⟨?_, ?_, List.mem_cons_self _ _⟩
  · exact cvResize_width m _ _ (round_up_pos m.height env.flags.scale_factor hh hsf)
  · exact cvResize_height m _ _

set_option maxRecDepth 4000 in
/-- Witness for the amended C1 at the 101 × 1 buffer: the final width
is 102 (and height 2), and the resize call carries those sizes. -/
theorem degenerate_roundup_resizes_witness :
    (resize_image oddEnv oddMat).1.width = 102 ∧
    (resize_image oddEnv oddMat).1.height = 2 ∧
    Event.resizeCall 102 2 ∈ (resize_image oddEnv oddMat).2 := by
  have h := degenerate_roundup_resizes oddEnv oddMat rfl (by decide) rfl
    (by decide) (by decide) (by decide)
  exact ⟨h.1.trans (by decide), h.2.1.trans (by decide), h.2.2⟩

end Ueberzug

namespace Ueberzug

/-- The channel count of a per-pixel mapped non-empty buffer is the
(constant) output length of the pixel function. -/
theorem mapPixels_channels (m : Mat) (f : Pix → Pix) (n : Nat)
    (hf : ∀ p, (f p).length = n) (hne : m.total ≠ 0) :
    (m.mapPixels f).channels = n := by
  unfold Mat.total Mat.height Mat.width at hne
  cases hd : m.data with
  | nil => rw [hd] at hne; simp at hne
  | cons r t =>
    rw [hd] at hne
    cases hr : r with
    | nil => rw [hr] at hne; simp at hne
    | cons p ps =>
      show (((m.data.map (fun row => row.map f)).headD []).headD []).length = n
      rw [hd, hr]
      simpa using hf p

end Ueberzug

namespace Ueberzug

/-- C5: the final channel count and order per backend.  Grayscale
input is first expanded to BGRA with opaque alpha; the x11/chafa/
wayland backends end 4-channel BGRA (a 3-channel input gains an opaque
alpha, a 4-channel input is left as stored); kitty ends RGBA for
4-channel input and RGB for 3-channel; sixel always ends 3-channel RGB,
dropping alpha from a 4-channel input. -/
theorem backend_channel_matrix (m : Mat) (hne : m.total ≠ 0) :
    (m.channels = 1 → (grayStage m).1 = m.mapPixels gray2bgraPix ∧
      (grayStage m).1.channels = 4) ∧
    (∀ out ∈ bgra_trifecta,
      (m.channels = 3 → (backendStage out m).1 = m.mapPixels bgr2bgraPix ∧
        (backendStage out m).1.channels = 4) ∧
      (m.channels = 4 → (backendStage out m).1 = m)) ∧
    (m.channels = 4 → (backendStage "kitty" m).1 = m.mapPixels bgra2rgbaPix ∧
      (backendStage "kitty" m).1.channels = 4) ∧
    (m.channels = 3 → (backendStage "kitty" m).1 = m.mapPixels bgr2rgbPix ∧
      (backendStage "kitty" m).1.channels = 3) ∧
    (m.channels = 4 → (backendStage "sixel" m).1 = m.mapPixels bgra2rgbPix ∧
      (backendStage "sixel" m).1.channels = 3) ∧
    (m.channels = 3 → (backendStage "sixel" m).1 = m.mapPixels bgr2rgbPix ∧
      (backendStage "sixel" m).1.channels = 3) := by
  refine ⟨?_, ?_, ?_, ?_, ?_, ?_⟩
  · intro h1
    unfold grayStage
    rw [if_pos h1]
    exact ⟨rfl, mapPixels_channels m gray2bgraPix 4 (fun p => rfl) hne⟩
  · intro out hout
    have hc : bgra_trifecta.contains out = true := by
      simp only [bgra_trifecta, List.mem_cons, List.not_mem_nil, or_false] at hout
      rcases hout with rfl | rfl | rfl <;> decide
    constructor
    · intro h3
      unfold backendStage
      rw [if_pos hc, if_pos h3]
      exact ⟨rfl, mapPixels_channels m bgr2bgraPix 4 (fun p => rfl) hne⟩
    · intro h4
      unfold backendStage
      rw [if_pos hc, if_neg (by omega)]
  · intro h4
    unfold backendStage
    rw [if_neg (by decide), if_pos rfl, if_pos h4]
    exact ⟨rfl, mapPixels_channels m bgra2rgbaPix 4 (fun p => rfl) hne⟩
  · intro h3
    unfold backendStage
    rw [if_neg (by decide), if_pos rfl, if_neg (by omega)]
    exact ⟨rfl, mapPixels_channels m bgr2rgbPix 3 (fun p => rfl) hne⟩
  · intro h4
    unfold backendStage
    rw [if_neg (by decide), if_neg (by decide), if_pos rfl, if_pos h4]
    exact ⟨rfl, mapPixels_channels m bgra2rgbPix 3 (fun p => rfl) hne⟩
  · intro h3
    unfold backendStage
    rw [if_neg (by decide), if_neg (by decide), if_pos rfl, if_neg (by omega)]
    exact ⟨rfl, mapPixels_channels m bgr2rgbPix 3 (fun p => rfl) hne⟩

/-- Witness for C5 on concrete one-pixel buffers: sixel turns BGRA
[10,20,30,40] into RGB [30,20,10]; kitty turns BGR [10,20,30] into RGB
[30,20,10]; x11 turns BGR [10,20,30] into BGRA [10,20,30,255];
grayscale [7] expands to BGRA [7,7,7,255]. -/
theorem backend_channel_matrix_witness :
    (backendStage "sixel" ⟨[[[10, 20, 30, 40]]], false⟩).1 =
      ⟨[[[30, 20, 10]]], false⟩ ∧
    (backendStage "kitty" ⟨[[[10, 20, 30]]], false⟩).1 =
      ⟨[[[30, 20, 10]]], false⟩ ∧
    (backendStage "x11" ⟨[[[10, 20, 30]]], false⟩).1 =
      ⟨[[[10, 20, 30, 255]]], false⟩ ∧
    (grayStage ⟨[[[7]]], false⟩).1 = ⟨[[[7, 7, 7, 255]]], false⟩ := by
  have h4 := backend_channel_matrix ⟨[[[10, 20, 30, 40]]], false⟩ (by decide)
  have h3 := backend_channel_matrix ⟨[[[10, 20, 30]]], false⟩ (by decide)
  have h1 := backend_channel_matrix ⟨[[[7]]], false⟩ (by decide)
  refine ⟨(h4.2.2.2.2.1 rfl).1.trans (by decide),
    (h3.2.2.2.1 rfl).1.trans (by decide),
    ((h3.2.1 "x11" (by decide)).1 rfl).1.trans (by decide),
    (h1.1 rfl).1.trans (by decide)⟩

end Ueberzug

namespace Ueberzug

/-- The true byte count of the pixel data: the number of channel values
actually stored, times bytes per channel value. -/
def Mat.dataBytes (m : Mat) : Nat :=
  ((m.data.map (fun row => (row.map List.length).sum)).sum) * m.elemSize1

/-- The sum of a constant-valued map is length times the constant. -/
theorem sum_map_const {α : Type} (l : List α) (f : α → Nat) (c : Nat)
    (hf : ∀ x ∈ l, f x = c) : (l.map f).sum = l.length * c := by
  induction l with
  | nil => simp
  | cons a t ih =>
    simp only [List.map_cons, List.sum_cons, List.length_cons]
    rw [hf a (by simp), ih (fun x hx => hf x (by simp [hx]))]
    ring

/-- On a rectangular buffer the reported size formula
`total() * elemSize()` equals the true byte count of the data. -/
theorem rect_dataBytes (m : Mat) (hr : m.Rect) :
    m.dataBytes = m.total * m.elemSize := by
  unfold Mat.dataBytes Mat.total Mat.elemSize
  have houter : (m.data.map (fun row => (row.map List.length).sum)).sum =
      m.data.length * (m.width * m.channels) := by
    refine sum_map_const m.data _ _ (fun row hrow => ?_)
    rw [sum_map_const row List.length m.channels
      (fun p hp => hr.pix_len row hrow p hp), hr.rows_len row hrow]
  rw [houter]
  show m.height * (m.width * m.channels) * m.elemSize1 =
    m.height * m.width * (m.channels * m.elemSize1)
  ring

/-- `mapPixels` preserves the row count. -/
theorem mapPixels_height (m : Mat) (f : Pix → Pix) :
    (m.mapPixels f).height = m.height := by
  simp [Mat.mapPixels, Mat.height]

/-- `mapPixels` preserves the row length. -/
theorem mapPixels_width (m : Mat) (f : Pix → Pix) :
    (m.mapPixels f).width = m.width := by
  obtain ⟨d, b⟩ := m
  cases d <;> simp [Mat.mapPixels, Mat.width]

/-- `mapPixels` preserves the pixel count. -/
theorem mapPixels_total (m : Mat) (f : Pix → Pix) :
    (m.mapPixels f).total = m.total := by
  rw [Mat.total, Mat.total, mapPixels_height, mapPixels_width]

/-- A length-preserving pixel function preserves the channel count. -/
theorem mapPixels_channels_of_len (m : Mat) (f : Pix → Pix)
    (hf : ∀ p, (f p).length = p.length) :
    (m.mapPixels f).channels = m.channels := by
  obtain ⟨d, b⟩ := m
  cases d with
  | nil => rfl
  | cons r t =>
    cases r with
    | nil => rfl
    | cons p ps => simpa [Mat.mapPixels, Mat.channels] using hf p

/-- A length-preserving pixel function preserves rectangularity. -/
theorem mapPixels_rect_of_len (m : Mat) (f : Pix → Pix)
    (hf : ∀ p, (f p).length = p.length) (hr : m.Rect) :
    (m.mapPixels f).Rect := by
  constructor
  · intro row hrow
    rw [mapPixels_width]
    obtain ⟨r, hrmem, rfl⟩ := List.mem_map.mp hrow
    simpa using hr.rows_len r hrmem
  · intro row hrow p hp
    rw [mapPixels_channels_of_len m f hf]
    obtain ⟨r, hrmem, rfl⟩ := List.mem_map.mp hrow
    obtain ⟨q, hqmem, rfl⟩ := List.mem_map.mp hp
    rw [hf q]
    exact hr.pix_len r hrmem q hqmem

/-- A constant-output-length pixel function keeps a non-empty
rectangular buffer rectangular. -/
theorem mapPixels_rect_of_const (m : Mat) (f : Pix → Pix) (n : Nat)
    (hf : ∀ p, (f p).length = n) (hr : m.Rect) (hne : m.total ≠ 0) :
    (m.mapPixels f).Rect := by
  constructor
  · intro row hrow
    rw [mapPixels_width]
    obtain ⟨r, hrmem, rfl⟩ := List.mem_map.mp hrow
    simpa using hr.rows_len r hrmem
  · intro row hrow p hp
    rw [mapPixels_channels m f n hf hne]
    obtain ⟨r, hrmem, rfl⟩ := List.mem_map.mp hrow
    obtain ⟨q, hqmem, rfl⟩ := List.mem_map.mp hp
    exact hf q

/-- `premultiplyPix` preserves the pixel's channel count. -/
theorem premultiplyPix_length (p : Pix) :
    (premultiplyPix p).length = p.length := by
  rcases p with _ | ⟨b, _ | ⟨g, _ | ⟨r, _ | ⟨a, _ | ⟨x, t⟩⟩⟩⟩⟩ <;> rfl

/-- An in-range pixel of a rectangular buffer has the buffer's channel
count. -/
theorem pixel_length (m : Mat) (hr : m.Rect) (i j : Nat) (hi : i < m.height)
    (hj : j < m.width) : (m.pixel i j).length = m.channels := by
  unfold Mat.pixel
  have hrow : m.data.getD i [] ∈ m.data := getD_mem_of_lt m.data i [] hi
  have hlen := hr.rows_len _ hrow
  exact hr.pix_len _ hrow _ (getD_mem_of_lt _ j [] (by rw [hlen]; exact hj))

/-- Source index of the resample stays in range. -/
theorem scaled_index_lt (i n d : Nat) (hi : i < d) (hn : 0 < n) :
    i * n / d < n := by
  have hd : 0 < d := lt_of_le_of_lt (Nat.zero_le i) hi
  rw [Nat.div_lt_iff_lt_mul hd]
  calc i * n < d * n := (Nat.mul_lt_mul_right hn).mpr hi
    _ = n * d := Nat.mul_comm d n

end Ueberzug

namespace Ueberzug

/-- `cvResize` preserves the channel count of a non-empty rectangular
buffer when both targets are positive. -/
theorem cvResize_channels (m : Mat) (w h : Nat) (hr : m.Rect)
    (hh0 : 0 < m.height) (hw0 : 0 < m.width) (hw : 0 < w) (hh : 0 < h) :
    (cvResize m w h).channels = m.channels := by
  show ((((List.range h).map _).headD []).headD []).length = m.channels
  simp only [headD_eq_getD]
  rw [getD_range_map h _ 0 [] hh, getD_range_map w _ 0 [] hw]
  simpa using pixel_length m hr (0 * m.height / h) (0 * m.width / w)
    (by simpa using hh0) (by simpa using hw0)

/-- `cvResize` of a non-empty rectangular buffer to positive targets is
rectangular. -/
theorem cvResize_rect (m : Mat) (w h : Nat) (hr : m.Rect)
    (hh0 : 0 < m.height) (hw0 : 0 < m.width) (hw : 0 < w) (hh : 0 < h) :
    (cvResize m w h).Rect := by
  constructor
  · intro row hrow
    rw [cvResize_width m w h hh]
    obtain ⟨i, hi, rfl⟩ := List.mem_map.mp hrow
    simp
  · intro row hrow p hp
    rw [cvResize_channels m w h hr hh0 hw0 hw hh]
    obtain ⟨i, hi, rfl⟩ := List.mem_map.mp hrow
    obtain ⟨j, hj, rfl⟩ := List.mem_map.mp hp
    rw [List.mem_range] at hi hj
    exact pixel_length m hr _ _ (scaled_index_lt i m.height h hi hh0)
      (scaled_index_lt j m.width w hj hw0)

/-- `cvResize` to positive targets is non-empty. -/
theorem cvResize_total_ne (m : Mat) (w h : Nat) (hw : 0 < w) (hh : 0 < h) :
    (cvResize m w h).total ≠ 0 := by
  rw [Mat.total, cvResize_height, cvResize_width m w h hh]
  positivity

/-- `resize_image` keeps the buffer rectangular and non-empty, under
the spec's contract on the resolved size (section 4.2: either a
positive pair or the degenerate "no resize" sentinel). -/
theorem resize_image_wf (env : Env) (m : Mat) (hr : m.Rect)
    (hne : m.total ≠ 0) (hsf : 0 < env.flags.scale_factor)
    (hwf : (0 < env.newSize.1 ∧ 0 < env.newSize.2) ∨
      (env.newSize.1 ≤ 0 ∧ env.newSize.2 ≤ 0)) :
    (resize_image env m).1.Rect ∧ (resize_image env m).1.total ≠ 0 := by
  have hh0 : 0 < m.height := by
    rcases Nat.eq_zero_or_pos m.height with h0 | h0
    · exact absurd (by rw [Mat.total, h0]; ring) hne
    · exact h0
  have hw0 : 0 < m.width := by
    rcases Nat.eq_zero_or_pos m.width with h0 | h0
    · exact absurd (by rw [Mat.total, h0]; ring) hne
    · exact h0
  unfold resize_image
  dsimp only
  split
  · exact ⟨hr, hne⟩
  · split
    · split
      · split
        · have hwp := round_up_pos m.width env.flags.scale_factor hw0 hsf
          have hhp := round_up_pos m.height env.flags.scale_factor hh0 hsf
          exact ⟨cvResize_rect m _ _ hr hh0 hw0 hwp hhp,
            cvResize_total_ne m _ _ hwp hhp⟩
        · exact ⟨hr, hne⟩
      · exact ⟨hr, hne⟩
    · have hpos : 0 < env.newSize.1 ∧ 0 < env.newSize.2 := by
        rcases hwf with h | h
        · exact h
        · exact absurd h (by assumption)
      have hwp : 0 < env.newSize.1.toNat := by omega
      have hhp : 0 < env.newSize.2.toNat := by omega
      split
      · exact ⟨cvResize_rect m _ _ hr hh0 hw0 hwp hhp,
          cvResize_total_ne m _ _ hwp hhp⟩
      · exact ⟨cvResize_rect m _ _ hr hh0 hw0 hwp hhp,
          cvResize_total_ne m _ _ hwp hhp⟩

end Ueberzug

namespace Ueberzug

/-- Rectangularity only depends on the pixel data, not the depth
flag. -/
theorem rect_set_depth (d : List (List Pix)) (b bo : Bool)
    (h : Mat.Rect ⟨d, b⟩) : Mat.Rect ⟨d, bo⟩ := by
  constructor
  · exact h.rows_len
  · exact h.pix_len

/-- The depth stage keeps the buffer rectangular and non-empty. -/
theorem depthStage_wf (m : Mat) (hr : m.Rect) (hne : m.total ≠ 0) :
    (depthStage m).1.Rect ∧ (depthStage m).1.total ≠ 0 := by
  unfold depthStage
  split
  · constructor
    · exact rect_set_depth _ m.depth16 false
        (mapPixels_rect_of_len m (fun p => p.map scale16to8) (by simp) hr)
    · show (m.mapPixels (fun p => p.map scale16to8)).total ≠ 0
      rw [mapPixels_total]; exact hne
  · exact ⟨hr, hne⟩

/-- The premultiply stage keeps the buffer rectangular and
non-empty. -/
theorem premultiplyStage_wf (m : Mat) (hr : m.Rect) (hne : m.total ≠ 0) :
    (premultiplyStage m).1.Rect ∧ (premultiplyStage m).1.total ≠ 0 := by
  unfold premultiplyStage
  split
  · exact ⟨mapPixels_rect_of_len m premultiplyPix premultiplyPix_length hr,
      by rw [mapPixels_total]; exact hne⟩
  · exact ⟨hr, hne⟩

/-- The grayscale-expansion stage keeps the buffer rectangular and
non-empty. -/
theorem grayStage_wf (m : Mat) (hr : m.Rect) (hne : m.total ≠ 0) :
    (grayStage m).1.Rect ∧ (grayStage m).1.total ≠ 0 := by
  unfold grayStage
  split
  · exact ⟨mapPixels_rect_of_const m gray2bgraPix 4 (fun p => rfl) hr hne,
      by rw [mapPixels_total]; exact hne⟩
  · exact ⟨hr, hne⟩

/-- The backend conversion stage keeps the buffer rectangular and
non-empty. -/
theorem backendStage_wf (out : String) (m : Mat) (hr : m.Rect)
    (hne : m.total ≠ 0) :
    (backendStage out m).1.Rect ∧ (backendStage out m).1.total ≠ 0 := by
  unfold backendStage
  repeat' split
  all_goals
    first
      | exact ⟨hr, hne⟩
      | exact ⟨mapPixels_rect_of_const m _ 4 (fun p => rfl) hr hne,
          by rw [mapPixels_total]; exact hne⟩
      | exact ⟨mapPixels_rect_of_const m _ 3 (fun p => rfl) hr hne,
          by rw [mapPixels_total]; exact hne⟩

/-- C9: after `process_image` completes, the stored byte size `_size`
equals `total() * elemSize()` of the FINAL buffer — width × height ×
channels × bytes-per-channel after all conversions — and, the final
buffer being rectangular, this is exactly the true byte count of the
pixel data. -/
theorem final_size_invariant (env : Env) (s : PState) (hr : s.image.Rect)
    (hne : s.image.total ≠ 0) (hsf : 0 < env.flags.scale_factor)
    (hwf : (0 < env.newSize.1 ∧ 0 < env.newSize.2) ∨
      (env.newSize.1 ≤ 0 ∧ env.newSize.2 ≤ 0)) :
    (process_image env s).1.size =
      (process_image env s).1.image.total *
        (process_image env s).1.image.elemSize ∧
    (process_image env s).1.image.Rect ∧
    (process_image env s).1.size = (process_image env s).1.image.dataBytes := by
  have h1 := resize_image_wf env s.image hr hne hsf hwf
  have h2 := depthStage_wf _ h1.1 h1.2
  have h3 := premultiplyStage_wf _ h2.1 h2.2
  have h4 := grayStage_wf _ h3.1 h3.2
  have h5 := backendStage_wf env.flags.output _ h4.1 h4.2
  have hfin : (process_image env s).1.image =
      (backendStage env.flags.output (grayStage (premultiplyStage (depthStage
        (resize_image env s.image).1).1).1).1).1 := rfl
  have hsz : (process_image env s).1.size =
      (process_image env s).1.image.total *
        (process_image env s).1.image.elemSize := rfl
  refine ⟨hsz, ?_, ?_⟩
  · rw [hfin]; exact h5.1
  · rw [hsz, hfin]
    exact (rect_dataBytes _ h5.1).symm

/-- Environment of the C9 witness: sixel backend, resolved resize
target (2, 2), OpenCL available. -/
def c9Env : Env :=
  { flags := { output := "sixel", scale_factor := 2, no_cache := false,
               origin_center := false, needs_scaling := false },
    exif := none, newSize := (2, 2), openclAvailable := true,
    writeFails := false, in_cache := false, fontW := 8, fontH := 16 }

/-- State of the C9 witness: a 2 × 1 16-bit BGRA buffer. -/
def c9State : PState :=
  { image := ⟨[[[1, 2, 3, 4], [5, 6, 7, 8]]], true⟩,
    dimX := 0, dimY := 0, size := 0 }

/-- Witness for C9 on a concrete 16-bit BGRA buffer processed for
sixel. -/
theorem final_size_invariant_witness :
    (process_image c9Env c9State).1.size =
      (process_image c9Env c9State).1.image.total *
        (process_image c9Env c9State).1.image.elemSize ∧
    (process_image c9Env c9State).1.image.Rect ∧
    (process_image c9Env c9State).1.size =
      (process_image c9Env c9State).1.image.dataBytes :=
  final_size_invariant c9Env c9State ⟨by decide, by decide⟩ (by decide)
    (by decide) (by decide)

end Ueberzug

namespace Ueberzug

/-- Every event a colourization stage emits is a colourization
transform (never a resize or a cache write). -/
theorem color_stages_trace (env : Env) (m : Mat) :
    (∀ e ∈ (depthStage m).2, e.isColor = true) ∧
    (∀ e ∈ (premultiplyStage m).2, e.isColor = true) ∧
    (∀ e ∈ (grayStage m).2, e.isColor = true) ∧
    (∀ e ∈ (backendStage env.flags.output m).2, e.isColor = true) := by
  refine ⟨?_, ?_, ?_, ?_⟩
  · intro e he
    unfold depthStage at he
    split at he <;> simp at he <;> subst he <;> rfl
  · intro e he
    unfold premultiplyStage at he
    split at he <;> simp at he <;> subst he <;> rfl
  · intro e he
    unfold grayStage at he
    split at he <;> simp at he <;> subst he <;> rfl
  · intro e he
    unfold backendStage at he
    repeat' split at he
    all_goals simp at he
    all_goals subst he
    all_goals rfl

/-- A colourization event is not a cache write. -/
theorem isColor_not_isWrite (e : Event) (h : e.isColor = true) :
    e.isWrite = false := by
  cases e <;> simp_all [Event.isColor, Event.isWrite]

/-- Every buffer `resize_image_helper` writes to the cache is exactly
its in-memory result, the freshly resized buffer. -/
theorem resize_image_helper_write_is_result (env : Env) (m : Mat)
    (w h : Nat) : ∀ (M : Mat) (ok : Bool),
    Event.imwrite M ok ∈ (resize_image_helper env m w h).2 →
    M = (resize_image_helper env m w h).1 := by
  intro M ok hmem
  unfold resize_image_helper at hmem ⊢
  dsimp only at hmem ⊢
  rw [List.mem_cons] at hmem
  rcases hmem with habs | hmem
  · exact absurd habs (by simp)
  · split at hmem
    · simp at hmem
    · simp only [List.mem_singleton] at hmem
      rw [Event.imwrite.injEq] at hmem
      exact hmem.1

/-- `resize_image` either leaves the buffer alone with an empty trace
or is one `resize_image_helper` run. -/
theorem resize_image_cases (env : Env) (m : Mat) :
    resize_image env m = (m, []) ∨
    ∃ w h, resize_image env m = resize_image_helper env m w h := by
  unfold resize_image
  dsimp only
  repeat' split
  all_goals first
    | exact Or.inl rfl
    | exact Or.inr ⟨_, _, rfl⟩

/-- Every buffer `resize_image` writes to the cache is exactly its
in-memory result. -/
theorem resize_image_write_is_result (env : Env) (m : Mat) :
    ∀ (M : Mat) (ok : Bool), Event.imwrite M ok ∈ (resize_image env m).2 →
    M = (resize_image env m).1 := by
  intro M ok hmem
  rcases resize_image_cases env m with hcase | ⟨w, h, hcase⟩
  · rw [hcase] at hmem
    simp at hmem
  · rw [hcase] at hmem ⊢
    exact resize_image_helper_write_is_result env m w h M ok hmem

/-- The trace of `process_image` is the resize-phase trace followed by
the four colourization stage traces, in order. -/
theorem process_image_trace (env : Env) (s : PState) :
    (process_image env s).2 = (((resize_image env s.image).2 ++
      (depthStage (resize_image env s.image).1).2 ++
      (premultiplyStage (depthStage (resize_image env s.image).1).1).2) ++
      (grayStage (premultiplyStage (depthStage
        (resize_image env s.image).1).1).1).2) ++
      (backendStage env.flags.output (grayStage (premultiplyStage
        (depthStage (resize_image env s.image).1).1).1).1).2 := by
  rfl

/-- The colourization phase of `process_image` never writes to the
cache, and every cache write in a full run carries exactly the resize
result. -/
theorem process_write_split (env : Env) (s : PState) :
    ∃ t2, (process_image env s).2 = (resize_image env s.image).2 ++ t2 ∧
      (∀ e ∈ t2, e.isWrite = false) ∧
      (∀ (M : Mat) (ok : Bool), Event.imwrite M ok ∈ (process_image env s).2 →
        M = (resize_image env s.image).1) := by
  have hcs := color_stages_trace env
  refine ⟨(depthStage (resize_image env s.image).1).2 ++
      (premultiplyStage (depthStage (resize_image env s.image).1).1).2 ++
      (grayStage (premultiplyStage (depthStage
        (resize_image env s.image).1).1).1).2 ++
      (backendStage env.flags.output (grayStage (premultiplyStage
        (depthStage (resize_image env s.image).1).1).1).1).2, ?_, ?_, ?_⟩
  · rw [process_image_trace]
    simp [List.append_assoc]
  · intro e he
    simp only [List.mem_append] at he
    rcases he with ((he | he) | he) | he
    · exact isColor_not_isWrite e ((hcs _).1 e he)
    · exact isColor_not_isWrite e ((hcs _).2.1 e he)
    · exact isColor_not_isWrite e ((hcs _).2.2.1 e he)
    · exact isColor_not_isWrite e ((hcs _).2.2.2 e he)
  · intro M ok hmem
    rw [process_image_trace] at hmem
    simp only [List.mem_append] at hmem
    rcases hmem with (((hmem | hmem) | hmem) | hmem) | hmem
    · exact resize_image_write_is_result env s.image M ok hmem
    · exact absurd ((hcs _).1 _ hmem) (by simp [Event.isColor])
    · exact absurd ((hcs _).2.1 _ hmem) (by simp [Event.isColor])
    · exact absurd ((hcs _).2.2.1 _ hmem) (by simp [Event.isColor])
    · exact absurd ((hcs _).2.2.2 _ hmem) (by simp [Event.isColor])

/-- C10: in every successful pipeline run the trace splits into the
resize phase followed by the colourization phase: all cache writes
happen in the resize phase (before any depth conversion, premultiply
or channel reorder), and the written buffer is exactly the
orientation-corrected, resized buffer — untouched by the later
colourization transforms. -/
theorem cache_write_precedes_colorize (env : Env) (decoded : Mat)
    (x0 y0 : Int) (st : PState) (tr : List Event)
    (hok : construct env decoded x0 y0 = Except.ok (st, tr)) :
    ∃ t1 t2, tr = t1 ++ t2 ∧
      t1 = (resize_image env (rotate_image env.exif decoded)).2 ∧
      (∀ e ∈ t1, e.isColor = false) ∧
      (∀ e ∈ t2, e.isWrite = false) ∧
      (∀ (M : Mat) (ok : Bool), Event.imwrite M ok ∈ tr →
        M = (resize_image env (rotate_image env.exif decoded)).1) := by
  unfold construct at hok
  split at hok
  · exact absurd hok (by simp)
  · rw [Except.ok.injEq] at hok
    have htr := (congrArg Prod.snd hok).symm
    dsimp only at htr
    obtain ⟨t2, heq, hnw, hwr⟩ := process_write_split env
      { image := rotate_image env.exif decoded, dimX := x0, dimY := y0,
        size := 0 }
    refine ⟨(resize_image env (rotate_image env.exif decoded)).2, t2, ?_, rfl,
      resize_trace_no_color env _, hnw, ?_⟩
    · rw [htr]
      exact heq
    · intro M ok hmem
      rw [htr] at hmem
      exact hwr M ok hmem

end Ueberzug

namespace Ueberzug

/-- Environment of the C10 witness: kitty backend, resolved resize
target (2, 2), caching enabled. -/
def c10Env : Env :=
  { flags := { output := "kitty", scale_factor := 2, no_cache := false,
               origin_center := false, needs_scaling := false },
    exif := none, newSize := (2, 2), openclAvailable := false,
    writeFails := false, in_cache := false, fontW := 8, fontH := 16 }

/-- A 1 × 1 grayscale buffer for the C10 witness. -/
def c10Mat : Mat := ⟨[[[5]]], false⟩

/-- The C10 witness pipeline run. -/
def c10Run : PState × List Event :=
  process_image c10Env { image := c10Mat, dimX := 0, dimY := 0, size := 0 }

/-- Witness for C10 on a concrete run that resizes, writes the cache,
then expands grayscale and reorders for kitty. -/
theorem cache_write_precedes_colorize_witness :
    ∃ t1 t2, c10Run.2 = t1 ++ t2 ∧
      t1 = (resize_image c10Env (rotate_image c10Env.exif c10Mat)).2 ∧
      (∀ e ∈ t1, e.isColor = false) ∧
      (∀ e ∈ t2, e.isWrite = false) ∧
      (∀ (M : Mat) (ok : Bool), Event.imwrite M ok ∈ c10Run.2 →
        M = (resize_image c10Env (rotate_image c10Env.exif c10Mat)).1) :=
  cache_write_precedes_colorize c10Env c10Mat 0 0 c10Run.1 c10Run.2 (by rfl)

end Ueberzug
